import Mathlib

/-!
Verification of the resize-planning pipeline of `vips.go` (package `vips`).

The Go source is shallowly embedded below.  Go `float64` planning arithmetic
(divisions, `math.Min`, `math.Max`, `math.Floor`) is modelled over `ℚ`
(the inputs of every division are integers, so all values are rational);
Go `int` is modelled as `ℤ`, and Go integer division (truncation toward
zero) as `Int.tdiv`.  The C "vips" engine routines (`vips_jpegload_buffer_shrink`,
`vips_shrink_0`, `vips_affine_interpolator`, `vips_extract_area_0`,
`vips_embed_extend`, ...) are external collaborators whose bodies are not part
of this repository; they are modelled by an `Oracle` supplying the dimensions
(or the error status) each call produces, and the pipeline records the calls
it makes in a `Call` trace.
-/

/-- `ImageType` from vips.go lines 27-33. -/
inductive ImageType where
  | UNKNOWN
  | JPEG
  | PNG
deriving DecidableEq, Repr

/-- `Interpolator` from vips.go lines 35-41. -/
inductive Interpolator where
  | BICUBIC
  | BILINEAR
  | NOHALO
deriving DecidableEq, Repr

/-- `Extend` from vips.go lines 43-48 (pad colour policy). -/
inductive ExtendPolicy where
  | BLACK
  | WHITE
deriving DecidableEq, Repr

/-- `Gravity` from vips.go lines 308-316. -/
inductive Gravity where
  | CENTRE
  | NORTH
  | EAST
  | SOUTH
  | WEST
deriving DecidableEq, Repr

/-- `Options` from vips.go lines 58-67. -/
structure Options where
  height : ℤ := 0
  width : ℤ := 0
  crop : Bool := false
  enlarge : Bool := false
  extendWith : ExtendPolicy := .BLACK
  interpolator : Interpolator := .BICUBIC
  gravity : Gravity := .CENTRE
  quality : ℤ := 0
deriving DecidableEq, Repr

/-- The numeric planning state threaded through `Resize`: the local variables
`factor`, `shrink`, `residual` of vips.go together with the (mutated)
`o.Width`, `o.Height`. -/
structure Plan where
  factor : ℚ
  shrink : ℤ
  residual : ℚ
  width : ℤ
  height : ℤ
deriving DecidableEq, Repr

/-- The `switch` of vips.go lines 131-154: overall scale factor and the
(possibly derived) target width and height.  Returns `(factor, width, height)`. -/
def planFWH (inWidth inHeight : ℤ) (o : Options) : ℚ × ℤ × ℤ :=
  if 0 < o.width ∧ 0 < o.height then
    -- Fixed width and height
    let xf : ℚ := (inWidth : ℚ) / (o.width : ℚ)
    let yf : ℚ := (inHeight : ℚ) / (o.height : ℚ)
    (if o.crop then min xf yf else max xf yf, o.width, o.height)
  else if 0 < o.width then
    -- Fixed width, auto height
    let factor : ℚ := (inWidth : ℚ) / (o.width : ℚ)
    (factor, o.width, ⌊(inHeight : ℚ) / factor⌋)
  else if 0 < o.height then
    -- Fixed height, auto width
    let factor : ℚ := (inWidth : ℚ) / (o.height : ℚ)
    (factor, ⌊(inWidth : ℚ) / factor⌋, o.height)
  else
    -- Identity transform
    (1, inWidth, inHeight)

/-- vips.go lines 131-163: the factor/size switch followed by
`shrink := int(math.Floor(factor))` clamped to `≥ 1` and
`residual := float64(shrink) / factor`. -/
def planBase (inWidth inHeight : ℤ) (o : Options) : Plan :=
  let f := (planFWH inWidth inHeight o).1
  let w := (planFWH inWidth inHeight o).2.1
  let h := (planFWH inWidth inHeight o).2.2
  let shrink := if ⌊f⌋ < 1 then 1 else ⌊f⌋
  ⟨f, shrink, (shrink : ℚ) / f, w, h⟩

/-- The condition of the non-enlargement guard, vips.go lines 166-167:
`!o.Enlarge && (inWidth < o.Width || inHeight < o.Height)`,
evaluated on the plan produced by lines 131-163. -/
def guardCondition (inWidth inHeight : ℤ) (enlarge : Bool) (p : Plan) : Prop :=
  enlarge = false ∧ (inWidth < p.width ∨ inHeight < p.height)

instance (inWidth inHeight : ℤ) (enlarge : Bool) (p : Plan) :
    Decidable (guardCondition inWidth inHeight enlarge p) := by
  unfold guardCondition; infer_instance

/-- vips.go lines 166-174: if enlargement is disallowed and the plan would
enlarge either axis, force the identity transform pinned to the input size. -/
def applyEnlargeGuard (inWidth inHeight : ℤ) (enlarge : Bool) (p : Plan) : Plan :=
  if guardCondition inWidth inHeight enlarge p then
    ⟨1, 1, 0, inWidth, inHeight⟩
  else p

/-- The full Dimension Planner: vips.go lines 128-174. -/
def planDimensions (inWidth inHeight : ℤ) (o : Options) : Plan :=
  applyEnlargeGuard inWidth inHeight o.enlarge (planBase inWidth inHeight o)

/-- Written from the claim/spec wording for C4: the largest value in
`{8, 4, 2}` that is `≤ f`, and `1` when no such value exists.  Used to compare
the source's `shrink`-based tests against the claim's `floor(factor)`-based
description. -/
def largestShrinkDivisorSpec (f : ℤ) : ℤ :=
  if 8 ≤ f then 8 else if 4 ≤ f then 4 else if 2 ≤ f then 2 else 1

/-- vips.go lines 176-190: choose the decode-time shrink-on-load divisor
(JPEG only) and divide `factor` by it.  Returns `(shrinkOnLoad, plan)`. -/
def chooseShrinkOnLoad (typ : ImageType) (p : Plan) : ℤ × Plan :=
  if typ = .JPEG then
    if 8 ≤ p.shrink then (8, { p with factor := p.factor / 8 })
    else if 4 ≤ p.shrink then (4, { p with factor := p.factor / 4 })
    else if 2 ≤ p.shrink then (2, { p with factor := p.factor / 2 })
    else (1, p)
  else (1, p)

/-- vips.go lines 196-199 (executed only when `shrinkOnLoad > 1`):
`factor = max(factor, 1.0)`, `shrink = int(math.Floor(factor))`,
`residual = float64(shrink) / factor`. -/
def recalcAfterShrinkOnLoad (p : Plan) : Plan :=
  let factor := max p.factor 1
  let shrink := ⌊factor⌋
  { p with factor := factor, shrink := shrink, residual := (shrink : ℚ) / factor }

/-- The Shrink Strategy stage, vips.go lines 176-199: the shrink-on-load
choice followed by the recalculation, the latter performed only when the
chosen divisor exceeds 1. -/
def shrinkStrategy (typ : ImageType) (p : Plan) : ℤ × Plan :=
  let sol := (chooseShrinkOnLoad typ p).1
  let p₁ := (chooseShrinkOnLoad typ p).2
  (sol, if 1 < sol then recalcAfterShrinkOnLoad p₁ else p₁)

/-- vips.go lines 219-229: after the integral shrink, recompute the residual
from the actual shrunk dimensions: `residualx = o.Width/shrunkWidth`,
`residualy = o.Height/shrunkHeight`, combined with `max` when cropping and
`min` when fitting. -/
def recomputeResidual (crop : Bool) (planW planH shrunkW shrunkH : ℤ) : ℚ :=
  let rx : ℚ := (planW : ℚ) / (shrunkW : ℚ)
  let ry : ℚ := (planH : ℚ) / (shrunkH : ℚ)
  if crop then max rx ry else min rx ry

/-- `sharpCalcCrop` from vips.go lines 318-336.  Go `/` on int truncates
toward zero, i.e. `Int.tdiv`. -/
def sharpCalcCrop (inWidth inHeight outWidth outHeight : ℤ) (gravity : Gravity) :
    ℤ × ℤ :=
  match gravity with
  | .NORTH => (Int.tdiv (inWidth - outWidth + 1) 2, 0)
  | .EAST => (inWidth - outWidth, Int.tdiv (inHeight - outHeight + 1) 2)
  | .SOUTH => (Int.tdiv (inWidth - outWidth + 1) 2, inHeight - outHeight)
  | .WEST => (0, Int.tdiv (inHeight - outHeight + 1) 2)
  | .CENTRE => (Int.tdiv (inWidth - outWidth + 1) 2, Int.tdiv (inHeight - outHeight + 1) 2)

/-- The operation the Placement Stage decides on (vips.go lines 258-279):
an exact copy, a crop (`vips_extract_area_0` at the given rectangle), or an
embed (`vips_embed_extend` at the given rectangle). -/
inductive PlacementChoice where
  | copy
  | cropAt (left top width height : ℤ)
  | embedAt (left top width height : ℤ)
deriving DecidableEq, Repr

/-- The Placement Stage decision, vips.go lines 258-279: compare the affined
size against the plan's target size; on mismatch crop (offset from
`sharpCalcCrop` on the unclamped target, size clamped by `math.Min`) or embed
(centred with truncating division). -/
def placement (affW affH planW planH : ℤ) (crop : Bool) (gravity : Gravity) :
    PlacementChoice :=
  if affW ≠ planW ∨ affH ≠ planH then
    if crop then
      let lt := sharpCalcCrop affW affH planW planH gravity
      .cropAt lt.1 lt.2 (min affW planW) (min affH planH)
    else
      .embedAt (Int.tdiv (planW - affW) 2) (Int.tdiv (planH - affH) 2) planW planH
  else .copy

/-- Errors surfaced by `Resize`: a failed stream read (modelled after
`bytes.Reader`, which reports `io.EOF` on emptiness), the explicit
`errors.New("unknown image format")` of vips.go line 93, and the engine
message built by `resizeError()` (vips.go lines 301-306), whose text we leave
abstract. -/
inductive GoError where
  | eof
  | unknownImageFormat
  | vipsError
deriving DecidableEq, Repr

/-- A collaborator invocation made by the pipeline, in program order. -/
inductive Call where
  | jpegloadShrink (shrinkOnLoad : ℤ)
  | shrinkBy (xshrink yshrink : ℚ)
  | affine (sx sy : ℚ) (kernel : Interpolator)
  | extractArea (left top width height : ℤ)
  | embedExtend (left top width height : ℤ) (policy : ExtendPolicy)
  | colourspace
  | jpegsave (quality : ℤ)
deriving DecidableEq, Repr

/-- The external vips engine, modelled by the dimensions (or error status)
each collaborator call returns.  `inDims` are `in.Xsize, in.Ysize` of the
plainly decoded input (vips.go lines 124-125; the plain load's return value
is not checked by the source). -/
structure Oracle where
  inDims : ℤ × ℤ
  jpegloadShrinkDims : ℤ → Except Unit (ℤ × ℤ)
  shrinkDims : ℤ × ℤ → ℚ → ℚ → Except Unit (ℤ × ℤ)
  affineDims : ℤ × ℤ → ℚ → ℚ → Interpolator → Except Unit (ℤ × ℤ)
  extractOk : Bool
  embedOk : Bool

/-- The Residual Affine Stage, vips.go lines 238-249: when `residual != 0`
invoke `vips_affine_interpolator` with the residual as a uniform scale and the
requested kernel (a nonzero status is fatal); when `residual == 0` copy.
Returns the calls made and the resulting dimensions or error. -/
def runAffine (eng : Oracle) (kernel : Interpolator) (residual : ℚ) (dims : ℤ × ℤ) :
    List Call × Except GoError (ℤ × ℤ) :=
  if residual ≠ 0 then
    ([Call.affine residual residual kernel],
      match eng.affineDims dims residual residual kernel with
      | .error _ => .error .vipsError
      | .ok d => .ok d)
  else ([], .ok dims)

/-- The Placement Stage execution, vips.go lines 258-279: perform the decided
operation, propagating a nonzero collaborator status as a fatal error. -/
def runPlacement (eng : Oracle) (affW affH planW planH : ℤ) (crop : Bool)
    (gravity : Gravity) (policy : ExtendPolicy) :
    List Call × Except GoError (ℤ × ℤ) :=
  match placement affW affH planW planH crop gravity with
  | .copy => ([], .ok (affW, affH))
  | .cropAt l t w h =>
    ([Call.extractArea l t w h], if eng.extractOk then .ok (w, h) else .error .vipsError)
  | .embedAt l t w h =>
    ([Call.embedExtend l t w h policy], if eng.embedOk then .ok (w, h) else .error .vipsError)

/-- vips.go lines 234-298: residual affine pass, placement, then the
unconditional colourspace conversion and jpeg save (whose statuses the source
ignores).  `p` is the plan whose `width`/`height` the placement compares
against; `residual` is the value current at line 238. -/
def finishRaster (eng : Oracle) (o : Options) (p : Plan) (residual : ℚ)
    (calls : List Call) (dims : ℤ × ℤ) : List Call × Except GoError (ℤ × ℤ) :=
  let ca := runAffine eng o.interpolator residual dims
  match ca.2 with
  | .error e => (calls ++ ca.1, .error e)
  | .ok ad =>
    let cp := runPlacement eng ad.1 ad.2 p.width p.height o.crop o.gravity o.extendWith
    match cp.2 with
    | .error e => (calls ++ ca.1 ++ cp.1, .error e)
    | .ok d =>
      (calls ++ ca.1 ++ cp.1 ++
        [Call.colourspace, Call.jpegsave (if o.quality = 0 then 100 else o.quality)],
        .ok d)

/-- vips.go lines 209-232: when the post-decode integral `shrink` exceeds 1,
invoke `vips_shrink_0` and recompute the residual from the actual shrunk
dimensions; otherwise copy and keep the plan's residual. -/
def runShrinkStage (eng : Oracle) (o : Options) (p : Plan) (calls : List Call)
    (dims : ℤ × ℤ) : List Call × Except GoError (ℤ × ℤ) :=
  if 1 < p.shrink then
    match eng.shrinkDims dims (p.shrink : ℚ) (p.shrink : ℚ) with
    | .error _ => (calls ++ [Call.shrinkBy (p.shrink : ℚ) (p.shrink : ℚ)], .error .vipsError)
    | .ok sd =>
      finishRaster eng o p (recomputeResidual o.crop p.width p.height sd.1 sd.2)
        (calls ++ [Call.shrinkBy (p.shrink : ℚ) (p.shrink : ℚ)]) sd
  else finishRaster eng o p p.residual calls dims

/-- vips.go lines 124-298: the planning and raster portion of `Resize`, from
the decoded input dimensions onward. -/
def runRaster (inW inH : ℤ) (o : Options) (typ : ImageType) (eng : Oracle) :
    List Call × Except GoError (ℤ × ℤ) :=
  let p := planDimensions inW inH o
  let sol := (shrinkStrategy typ p).1
  let p₁ := (shrinkStrategy typ p).2
  if 1 < sol then
    match eng.jpegloadShrinkDims sol with
    | .error _ => ([Call.jpegloadShrink sol], .error .vipsError)
    | .ok d => runShrinkStage eng o p₁ [Call.jpegloadShrink sol] d
  else runShrinkStage eng o p₁ [] (inW, inH)

/-- vips.go lines 79-83: `reader.Read(buf)` on a 2-byte buffer, modelled with
`bytes.Reader` semantics: a single `Read` returns `min(2, len)` bytes and
reports an error (`io.EOF`) only when the stream is empty; the unread tail of
`buf` keeps its zero initialization. -/
def readFirstTwo (stream : List ℕ) : Except GoError (ℕ × ℕ) :=
  match stream with
  | [] => .error .eof
  | [a] => .ok (a, 0)
  | a :: b :: _ => .ok (a, b)

/-- vips.go lines 86-94: classify by the 2-byte magic prefix
(`MARKER_JPEG = ff d8`, `MARKER_PNG = 89 50`). -/
def detectType (b0 b1 : ℕ) : ImageType :=
  if b0 = 0xff ∧ b1 = 0xd8 then .JPEG
  else if b0 = 0x89 ∧ b1 = 0x50 then .PNG
  else .UNKNOWN

/-- vips.go lines 78-94: the Format Sniffer — read the first two bytes
(propagating a read error) and classify, rejecting an unknown prefix with
`errors.New("unknown image format")`. -/
def sniff (stream : List ℕ) : Except GoError ImageType :=
  match readFirstTwo stream with
  | .error e => .error e
  | .ok ab =>
    match detectType ab.1 ab.2 with
    | .UNKNOWN => .error .unknownImageFormat
    | t => .ok t

/-- `Resize` (vips.go lines 75-299): sniff the format, then run the planning
and raster pipeline on the decoded input's dimensions.  The result is the
trace of collaborator calls and either the dimensions of the final raster or
the error returned. -/
def Resize (stream : List ℕ) (o : Options) (eng : Oracle) :
    List Call × Except GoError (ℤ × ℤ) :=
  match sniff stream with
  | .error e => ([], .error e)
  | .ok typ => runRaster eng.inDims.1 eng.inDims.2 o typ eng

/-- A concrete engine used by witnesses: every collaborator succeeds and
returns its input dimensions unchanged. -/
def idOracle : Oracle where
  inDims := (100, 100)
  jpegloadShrinkDims := fun _ => .ok (100, 100)
  shrinkDims := fun d _ _ => .ok d
  affineDims := fun d _ _ _ => .ok d
  extractOk := true
  embedOk := true

/-- A concrete engine for the C10 counterexample run: the plainly decoded
input is 1000×10 and `vips_shrink` by 20 produces a 50×1 raster. -/
def shrinkTo50x1Oracle : Oracle where
  inDims := (1000, 10)
  jpegloadShrinkDims := fun _ => .ok (1000, 10)
  shrinkDims := fun _ _ _ => .ok (50, 1)
  affineDims := fun d _ _ _ => .ok d
  extractOk := true
  embedOk := true

/-- Whether a trace contains an invocation of the affine resampling
collaborator (`vips_affine_interpolator`). -/
def mentionsAffine (cs : List Call) : Bool :=
  cs.any fun c =>
    match c with
    | .affine _ _ _ => true
    | _ => false

/-- A concrete engine whose affine collaborator reports a nonzero status. -/
def affineFailsOracle : Oracle where
  inDims := (100, 100)
  jpegloadShrinkDims := fun _ => .ok (100, 100)
  shrinkDims := fun d _ _ => .ok d
  affineDims := fun _ _ _ _ => .error ()
  extractOk := true
  embedOk := true

/-! ### Helper lemmas shared by the claim theorems -/

theorem plan_shrink_eq_max (inW inH : ℤ) (o : Options) :
    (planDimensions inW inH o).shrink = max 1 ⌊(planDimensions inW inH o).factor⌋ := by
  unfold planDimensions applyEnlargeGuard
  split_ifs with h
  · norm_num
  · simp only [planBase]
    split_ifs with h1 <;> omega

theorem chooseShrinkOnLoad_fst_cases (typ : ImageType) (p : Plan) :
    (chooseShrinkOnLoad typ p).1 = 1 ∨ (chooseShrinkOnLoad typ p).1 = 2 ∨
    (chooseShrinkOnLoad typ p).1 = 4 ∨ (chooseShrinkOnLoad typ p).1 = 8 := by
  unfold chooseShrinkOnLoad
  split_ifs <;> simp

theorem chooseShrinkOnLoad_eq_one_unchanged (typ : ImageType) (p : Plan)
    (h : (chooseShrinkOnLoad typ p).1 = 1) : (chooseShrinkOnLoad typ p).2 = p := by
  unfold chooseShrinkOnLoad at *
  split_ifs at h ⊢ <;> simp_all

theorem tdiv_succ_two_bounds (d : ℤ) (hd : 0 ≤ d) :
    0 ≤ Int.tdiv (d + 1) 2 ∧ Int.tdiv (d + 1) 2 ≤ d := by
  rw [Int.tdiv_eq_ediv (by omega) (by omega)]
  omega

/-! ### The claims -/

/-- C1: with both target dimensions positive, the Dimension Planner's switch
sets the overall scale factor to `min(inW/reqW, inH/reqH)` when cropping and
to `max(inW/reqW, inH/reqH)` when fitting (exact division on both axes). -/
theorem C1_planner_factor_both_fixed (inW inH : ℤ) (o : Options)
    (hw : 0 < o.width) (hh : 0 < o.height) :
    (planBase inW inH o).factor =
      if o.crop then min ((inW : ℚ) / (o.width : ℚ)) ((inH : ℚ) / (o.height : ℚ))
      else max ((inW : ℚ) / (o.width : ℚ)) ((inH : ℚ) / (o.height : ℚ)) := by
  simp only [planBase, planFWH, if_pos (And.intro hw hh)]

theorem C1_planner_factor_both_fixed_witness :
    (planBase 400 300 { width := 200, height := 100, crop := true }).factor = 2 := by
  have h := C1_planner_factor_both_fixed 400 300
    { width := 200, height := 100, crop := true } (by norm_num) (by norm_num)
  rw [h]
  norm_num

/-- C2: when enlargement is disallowed and the planned output exceeds the
input on either axis, the plan collapses to the identity transform
(`factor = 1`, `shrink = 1`, `residual = 0`) with the output pinned to the
input's natural dimensions. -/
theorem C2_non_enlargement_guard (inW inH : ℤ) (o : Options)
    (he : o.enlarge = false)
    (hx : inW < (planBase inW inH o).width ∨ inH < (planBase inW inH o).height) :
    planDimensions inW inH o = ⟨1, 1, 0, inW, inH⟩ := by
  unfold planDimensions applyEnlargeGuard
  rw [if_pos (show guardCondition inW inH o.enlarge (planBase inW inH o) from ⟨he, hx⟩)]

theorem C2_non_enlargement_guard_witness :
    planDimensions 100 100 { width := 400, height := 400 } = ⟨1, 1, 0, 100, 100⟩ := by
  exact C2_non_enlargement_guard 100 100 { width := 400, height := 400 } rfl
    (by left; norm_num [planBase, planFWH])

/-- C3: with a fixed height and an unconstrained width, the planner sets
`factor = inWidth / reqHeight` (the width axis divided by the height request)
and derives the output width as `⌊inWidth / factor⌋`, keeping the requested
height. -/
theorem C3_fixed_height_auto_width (inW inH : ℤ) (o : Options)
    (hw : o.width = 0) (hh : 0 < o.height) :
    (planBase inW inH o).factor = (inW : ℚ) / (o.height : ℚ) ∧
    (planBase inW inH o).width = ⌊(inW : ℚ) / (planBase inW inH o).factor⌋ ∧
    (planBase inW inH o).height = o.height := by
  have h1 : ¬ (0 < o.width ∧ 0 < o.height) := by rw [hw]; simp
  have h2 : ¬ (0 < o.width) := by rw [hw]; simp
  simp only [planBase, planFWH, if_neg h1, if_neg h2, if_pos hh]
  simp

theorem C3_fixed_height_auto_width_witness :
    (planBase 800 600 { height := 300 }).factor = 8 / 3 ∧
    (planBase 800 600 { height := 300 }).width = 300 ∧
    (planBase 800 600 { height := 300 }).height = 300 := by
  have h := C3_fixed_height_auto_width 800 600 { height := 300 } rfl (by norm_num)
  refine ⟨?_, ?_, h.2.2⟩
  · rw [h.1]; norm_num
  · rw [h.2.1, h.1]; norm_num

/-- C4: the decode-time shrink-on-load divisor is chosen only for JPEG input
and equals the largest value in `{8, 4, 2}` that is `≤ ⌊factor⌋` (1 when none
applies); `factor` is divided by the chosen divisor, and when the divisor is
1 the plan is unchanged at this step. -/
theorem C4_shrink_on_load_choice (inW inH : ℤ) (o : Options) (typ : ImageType) :
    (chooseShrinkOnLoad typ (planDimensions inW inH o)).1 =
      (if typ = .JPEG then largestShrinkDivisorSpec ⌊(planDimensions inW inH o).factor⌋
       else 1) ∧
    (chooseShrinkOnLoad typ (planDimensions inW inH o)).2.factor =
      (planDimensions inW inH o).factor /
        ((chooseShrinkOnLoad typ (planDimensions inW inH o)).1 : ℚ) ∧
    ((chooseShrinkOnLoad typ (planDimensions inW inH o)).1 = 1 →
      (chooseShrinkOnLoad typ (planDimensions inW inH o)).2 = planDimensions inW inH o) ∧
    ((chooseShrinkOnLoad typ (planDimensions inW inH o)).1 ≠ 1 →
      ((chooseShrinkOnLoad typ (planDimensions inW inH o)).1 = 8 ∨
       (chooseShrinkOnLoad typ (planDimensions inW inH o)).1 = 4 ∨
       (chooseShrinkOnLoad typ (planDimensions inW inH o)).1 = 2) ∧
      (chooseShrinkOnLoad typ (planDimensions inW inH o)).1 ≤
        ⌊(planDimensions inW inH o).factor⌋ ∧
      typ = .JPEG) ∧
    (∀ d : ℤ, (d = 8 ∨ d = 4 ∨ d = 2) → d ≤ ⌊(planDimensions inW inH o).factor⌋ →
      typ = .JPEG → d ≤ (chooseShrinkOnLoad typ (planDimensions inW inH o)).1) := by
  have hs := plan_shrink_eq_max inW inH o
  set p := planDimensions inW inH o with hp
  have hLSD : largestShrinkDivisorSpec ⌊p.factor⌋ =
      if 8 ≤ p.shrink then (8 : ℤ)
      else if 4 ≤ p.shrink then 4 else if 2 ≤ p.shrink then 2 else 1 := by
    unfold largestShrinkDivisorSpec
    split_ifs <;> omega
  rcases typ with _ | _ | _
  · have hc : chooseShrinkOnLoad .UNKNOWN p = (1, p) := by simp [chooseShrinkOnLoad]
    rw [hc]
    refine ⟨by simp, by simp, fun _ => rfl, fun h => absurd rfl h, ?_⟩
    intro d _ _ hJ
    cases hJ
  · have hc : chooseShrinkOnLoad .JPEG p =
        (if 8 ≤ p.shrink then ((8 : ℤ), { p with factor := p.factor / 8 })
         else if 4 ≤ p.shrink then ((4 : ℤ), { p with factor := p.factor / 4 })
         else if 2 ≤ p.shrink then ((2 : ℤ), { p with factor := p.factor / 2 })
         else ((1 : ℤ), p)) := by
      simp [chooseShrinkOnLoad]
    rw [hc, if_pos rfl, hLSD]
    split_ifs with h8 h4 h2
    · refine ⟨rfl, by norm_num, fun h => absurd h (by norm_num), ?_, ?_⟩
      · exact fun _ => ⟨Or.inl rfl, show (8 : ℤ) ≤ ⌊p.factor⌋ by omega, rfl⟩
      · intro d hd hle _
        rcases hd with rfl | rfl | rfl <;> omega
    · refine ⟨rfl, by norm_num, fun h => absurd h (by norm_num), ?_, ?_⟩
      · exact fun _ => ⟨Or.inr (Or.inl rfl), show (4 : ℤ) ≤ ⌊p.factor⌋ by omega, rfl⟩
      · intro d hd hle _
        rcases hd with rfl | rfl | rfl <;> omega
    · refine ⟨rfl, by norm_num, fun h => absurd h (by norm_num), ?_, ?_⟩
      · exact fun _ => ⟨Or.inr (Or.inr rfl), show (2 : ℤ) ≤ ⌊p.factor⌋ by omega, rfl⟩
      · intro d hd hle _
        rcases hd with rfl | rfl | rfl <;> omega
    · refine ⟨rfl, by simp, fun _ => rfl, fun h => absurd rfl h, ?_⟩
      intro d hd hle _
      rcases hd with rfl | rfl | rfl <;> omega
  · have hc : chooseShrinkOnLoad .PNG p = (1, p) := by simp [chooseShrinkOnLoad]
    rw [hc]
    refine ⟨by simp, by simp, fun _ => rfl, fun h => absurd rfl h, ?_⟩
    intro d _ _ hJ
    cases hJ

theorem C4_shrink_on_load_choice_witness :
    (chooseShrinkOnLoad .PNG (planDimensions 1000 1000 { width := 100, height := 100 })).1 = 1 ∧
    (chooseShrinkOnLoad .PNG (planDimensions 1000 1000 { width := 100, height := 100 })).2 =
      planDimensions 1000 1000 { width := 100, height := 100 } := by
  have h := C4_shrink_on_load_choice 1000 1000 { width := 100, height := 100 } .PNG
  have h1 : (chooseShrinkOnLoad .PNG
      (planDimensions 1000 1000 { width := 100, height := 100 })).1 = 1 := by
    rw [h.1]
    simp
  exact ⟨h1, h.2.2.1 h1⟩

theorem chooseShrinkOnLoad_preserves (typ : ImageType) (p : Plan) :
    (chooseShrinkOnLoad typ p).2.shrink = p.shrink ∧
    (chooseShrinkOnLoad typ p).2.residual = p.residual ∧
    (chooseShrinkOnLoad typ p).2.width = p.width ∧
    (chooseShrinkOnLoad typ p).2.height = p.height := by
  unfold chooseShrinkOnLoad
  split_ifs <;> simp

/-- C5 counterexample: for a 100×100 input with request 200×200 (enlargement
allowed), the planner produces `factor = 1/2`, `residual = 2`; the Shrink
Strategy stage chooses no divisor and leaves both untouched, so after the
stage the factor is NOT clamped to `max(factor, 1) = 1`, and the residual is
NOT `⌊factor⌋ / factor` (which would be `0`). -/
theorem C5_counterexample :
    (shrinkStrategy .JPEG
      (planDimensions 100 100 { width := 200, height := 200, enlarge := true })).2.factor
      = 1 / 2 ∧
    ¬ ((1 : ℚ) ≤ (shrinkStrategy .JPEG
      (planDimensions 100 100 { width := 200, height := 200, enlarge := true })).2.factor) ∧
    (shrinkStrategy .JPEG
      (planDimensions 100 100 { width := 200, height := 200, enlarge := true })).2.residual
      = 2 ∧
    (shrinkStrategy .JPEG
      (planDimensions 100 100 { width := 200, height := 200, enlarge := true })).2.residual ≠
      ((⌊(shrinkStrategy .JPEG
        (planDimensions 100 100 { width := 200, height := 200, enlarge := true })).2.factor⌋ : ℚ) /
       (shrinkStrategy .JPEG
        (planDimensions 100 100 { width := 200, height := 200, enlarge := true })).2.factor) := by
  have hplan : planDimensions 100 100 { width := 200, height := 200, enlarge := true } =
      ⟨1 / 2, 1, 2, 200, 200⟩ := by
    norm_num [planDimensions, planBase, planFWH, applyEnlargeGuard, guardCondition]
  have hstrat : shrinkStrategy .JPEG (⟨1 / 2, 1, 2, 200, 200⟩ : Plan) =
      (1, ⟨1 / 2, 1, 2, 200, 200⟩) := by
    norm_num [shrinkStrategy, chooseShrinkOnLoad]
  rw [hplan, hstrat]
  norm_num

/-- C5 (amended): the clamp `factor = max(factor, 1)` and the recomputation
`shrink = ⌊factor⌋`, `residual = ⌊factor⌋/factor` are performed only when a
decode-time shrink divisor greater than 1 was chosen; when the divisor is 1
the Shrink Strategy stage leaves the planner's factor, shrink and residual
completely unchanged. -/
theorem C5_clamp_only_after_shrink_on_load (inW inH : ℤ) (o : Options) (typ : ImageType) :
    (1 < (shrinkStrategy typ (planDimensions inW inH o)).1 →
      (shrinkStrategy typ (planDimensions inW inH o)).2.factor =
        max ((chooseShrinkOnLoad typ (planDimensions inW inH o)).2.factor) 1 ∧
      (shrinkStrategy typ (planDimensions inW inH o)).2.shrink =
        ⌊(shrinkStrategy typ (planDimensions inW inH o)).2.factor⌋ ∧
      (shrinkStrategy typ (planDimensions inW inH o)).2.residual =
        ((⌊(shrinkStrategy typ (planDimensions inW inH o)).2.factor⌋ : ℚ) /
          (shrinkStrategy typ (planDimensions inW inH o)).2.factor) ∧
      (shrinkStrategy typ (planDimensions inW inH o)).2.width =
        (planDimensions inW inH o).width ∧
      (shrinkStrategy typ (planDimensions inW inH o)).2.height =
        (planDimensions inW inH o).height) ∧
    (¬ 1 < (shrinkStrategy typ (planDimensions inW inH o)).1 →
      (shrinkStrategy typ (planDimensions inW inH o)).2 = planDimensions inW inH o) := by
  set p := planDimensions inW inH o with hp
  have hpres := chooseShrinkOnLoad_preserves typ p
  simp only [shrinkStrategy]
  by_cases h : 1 < (chooseShrinkOnLoad typ p).1
  · rw [if_pos h]
    constructor
    · intro _
      refine ⟨rfl, rfl, rfl, ?_, ?_⟩
      · simp [recalcAfterShrinkOnLoad, hpres.2.2.1]
      · simp [recalcAfterShrinkOnLoad, hpres.2.2.2]
    · intro hcon
      exact absurd h hcon
  · rw [if_neg h]
    constructor
    · intro hcon
      exact absurd hcon h
    · intro _
      have h1 : (chooseShrinkOnLoad typ p).1 = 1 := by
        rcases chooseShrinkOnLoad_fst_cases typ p with h' | h' | h' | h' <;> omega
      exact chooseShrinkOnLoad_eq_one_unchanged typ p h1

theorem C5_clamp_only_after_shrink_on_load_witness :
    1 < (shrinkStrategy .JPEG (planDimensions 1000 1000 { width := 100, height := 100 })).1 ∧
    (shrinkStrategy .JPEG (planDimensions 1000 1000 { width := 100, height := 100 })).2.factor =
      max ((chooseShrinkOnLoad .JPEG
        (planDimensions 1000 1000 { width := 100, height := 100 })).2.factor) 1 ∧
    (shrinkStrategy .JPEG (planDimensions 1000 1000 { width := 100, height := 100 })).2.factor =
      5 / 4 := by
  have hplan : planDimensions 1000 1000 { width := 100, height := 100 } =
      ⟨10, 10, 1, 100, 100⟩ := by
    norm_num [planDimensions, planBase, planFWH, applyEnlargeGuard, guardCondition]
  have hsol : 1 < (shrinkStrategy .JPEG
      (planDimensions 1000 1000 { width := 100, height := 100 })).1 := by
    rw [hplan]
    norm_num [shrinkStrategy, chooseShrinkOnLoad]
  have h := (C5_clamp_only_after_shrink_on_load 1000 1000
    { width := 100, height := 100 } .JPEG).1 hsol
  refine ⟨hsol, h.1, ?_⟩
  rw [h.1, hplan]
  norm_num [chooseShrinkOnLoad]

/-- C6: the Residual Affine Stage performs an identity copy and never invokes
the resampler when the residual is 0; otherwise it invokes the resampler once
with the residual as a uniform scale on both axes and the requested kernel,
and a nonzero status from the resampler aborts the resize with an error. -/
theorem C6_residual_affine_stage (eng : Oracle) (k : Interpolator) (res : ℚ)
    (dims : ℤ × ℤ) :
    (res = 0 → runAffine eng k res dims = ([], .ok dims)) ∧
    (res ≠ 0 →
      (runAffine eng k res dims).1 = [Call.affine res res k] ∧
      (∀ e, eng.affineDims dims res res k = .error e →
        (runAffine eng k res dims).2 = .error .vipsError) ∧
      (∀ d, eng.affineDims dims res res k = .ok d →
        (runAffine eng k res dims).2 = .ok d)) := by
  constructor
  · intro h
    simp [runAffine, h]
  · intro h
    unfold runAffine
    rw [if_pos h]
    refine ⟨rfl, ?_, ?_⟩
    · intro e he
      simp [he]
    · intro d hd
      simp [hd]

theorem C6_residual_affine_stage_witness :
    (runAffine affineFailsOracle .BICUBIC 2 (10, 10)).1 = [Call.affine 2 2 .BICUBIC] ∧
    (runAffine affineFailsOracle .BICUBIC 2 (10, 10)).2 = .error .vipsError := by
  have h := (C6_residual_affine_stage affineFailsOracle .BICUBIC 2 (10, 10)).2 (by norm_num)
  exact ⟨h.1, h.2.1 () rfl⟩

/-- C7 counterexample: in crop mode, when the crop target exceeds the affined
size (affined 10×10, target 20×10, gravity east), the offset is computed from
the unclamped target, so the stage extracts the rectangle with `left = -10`:
the crop window extends outside the source raster's bounds. -/
theorem C7_counterexample :
    placement 10 10 20 10 true .EAST = .cropAt (-10) 0 10 10 ∧
    (sharpCalcCrop 10 10 20 10 .EAST).1 < 0 := by
  constructor
  · decide
  · decide

/-- C7 (amended): the crop offsets follow the §4.6 gravity table exactly
(with truncating integer division); each non-centre gravity agrees with
centre on one coordinate; and whenever the crop target does not exceed the
affined size on either axis, the clamped crop window stays inside the source
raster's bounds for every gravity. -/
theorem C7_gravity_offsets_and_bounds (iW iH oW oH : ℤ) (g : Gravity) :
    sharpCalcCrop iW iH oW oH .NORTH = (Int.tdiv (iW - oW + 1) 2, 0) ∧
    sharpCalcCrop iW iH oW oH .EAST = (iW - oW, Int.tdiv (iH - oH + 1) 2) ∧
    sharpCalcCrop iW iH oW oH .SOUTH = (Int.tdiv (iW - oW + 1) 2, iH - oH) ∧
    sharpCalcCrop iW iH oW oH .WEST = (0, Int.tdiv (iH - oH + 1) 2) ∧
    sharpCalcCrop iW iH oW oH .CENTRE =
      (Int.tdiv (iW - oW + 1) 2, Int.tdiv (iH - oH + 1) 2) ∧
    (sharpCalcCrop iW iH oW oH .NORTH).1 = (sharpCalcCrop iW iH oW oH .CENTRE).1 ∧
    (sharpCalcCrop iW iH oW oH .SOUTH).1 = (sharpCalcCrop iW iH oW oH .CENTRE).1 ∧
    (sharpCalcCrop iW iH oW oH .EAST).2 = (sharpCalcCrop iW iH oW oH .CENTRE).2 ∧
    (sharpCalcCrop iW iH oW oH .WEST).2 = (sharpCalcCrop iW iH oW oH .CENTRE).2 ∧
    (0 ≤ oW → oW ≤ iW → 0 ≤ oH → oH ≤ iH →
      0 ≤ (sharpCalcCrop iW iH oW oH g).1 ∧
      0 ≤ (sharpCalcCrop iW iH oW oH g).2 ∧
      (sharpCalcCrop iW iH oW oH g).1 + min iW oW ≤ iW ∧
      (sharpCalcCrop iW iH oW oH g).2 + min iH oH ≤ iH) := by
  refine ⟨rfl, rfl, rfl, rfl, rfl, rfl, rfl, rfl, rfl, ?_⟩
  intro hw0 hwi hh0 hhi
  have hbw := tdiv_succ_two_bounds (iW - oW) (by omega)
  have hbh := tdiv_succ_two_bounds (iH - oH) (by omega)
  have hmw : min iW oW = oW := min_eq_right hwi
  have hmh : min iH oH = oH := min_eq_right hhi
  rcases g with _ | _ | _ | _ | _ <;>
    simp only [sharpCalcCrop, hmw, hmh] <;>
    omega

theorem C7_gravity_offsets_and_bounds_witness :
    0 ≤ (sharpCalcCrop 100 80 30 20 .SOUTH).1 ∧
    0 ≤ (sharpCalcCrop 100 80 30 20 .SOUTH).2 ∧
    (sharpCalcCrop 100 80 30 20 .SOUTH).1 + min 100 30 ≤ 100 ∧
    (sharpCalcCrop 100 80 30 20 .SOUTH).2 + min 80 20 ≤ 80 := by
  exact (C7_gravity_offsets_and_bounds 100 80 30 20 .SOUTH).2.2.2.2.2.2.2.2.2
    (by norm_num) (by norm_num) (by norm_num) (by norm_num)

/-- C8: the Placement Stage performs exactly one of copy, crop, embed; the
exact copy is chosen if and only if the affined size equals the plan's target
size, and on a mismatch the crop mode flag alone selects crop versus embed. -/
theorem C8_placement_exactly_one (affW affH planW planH : ℤ) (crop : Bool)
    (g : Gravity) :
    (placement affW affH planW planH crop g = .copy ↔ (affW = planW ∧ affH = planH)) ∧
    ((∃ l t w h, placement affW affH planW planH crop g = .cropAt l t w h) ↔
      (¬ (affW = planW ∧ affH = planH) ∧ crop = true)) ∧
    ((∃ l t w h, placement affW affH planW planH crop g = .embedAt l t w h) ↔
      (¬ (affW = planW ∧ affH = planH) ∧ crop = false)) := by
  unfold placement
  by_cases hne : affW ≠ planW ∨ affH ≠ planH
  · rw [if_pos hne]
    have hne' : ¬ (affW = planW ∧ affH = planH) := by tauto
    cases crop <;> simp [hne']
  · rw [if_neg hne]
    push_neg at hne
    simp [hne.1, hne.2]

/-- C9 counterexample: for an empty stream, `Resize` fails with the stream
read error (EOF), not with "unknown image format" as the claim states for
every stream shorter than 2 bytes. -/
theorem C9_counterexample :
    Resize [] {} idOracle = ([], .error .eof) ∧
    GoError.eof ≠ GoError.unknownImageFormat := by
  exact ⟨rfl, by decide⟩

/-- C9 (amended): classification uses only the first two bytes of the stream:
`ff d8` is JPEG, `89 50` is PNG, any other 2-byte prefix fails immediately
with "unknown image format" and an empty trace; a 1-byte stream is read with
a zero second byte and therefore also fails with "unknown image format"; an
empty stream fails with the read error (EOF) instead of the format error. -/
theorem C9_format_sniffing (o : Options) (eng : Oracle) (a b : ℕ)
    (rest rest' : List ℕ) :
    Resize [] o eng = ([], .error .eof) ∧
    (detectType a b = .JPEG ↔ (a = 0xff ∧ b = 0xd8)) ∧
    (detectType a b = .PNG ↔ (a = 0x89 ∧ b = 0x50)) ∧
    sniff (a :: b :: rest) = sniff (a :: b :: rest') ∧
    (detectType a b = .UNKNOWN →
      Resize (a :: b :: rest) o eng = ([], .error .unknownImageFormat)) ∧
    Resize [a] o eng = ([], .error .unknownImageFormat) := by
  refine ⟨rfl, ?_, ?_, rfl, ?_, ?_⟩
  · constructor
    · intro h
      unfold detectType at h
      split_ifs at h with h1 h2
      exact h1
    · rintro ⟨rfl, rfl⟩
      decide
  · constructor
    · intro h
      unfold detectType at h
      split_ifs at h with h1 h2
      exact h2
    · rintro ⟨rfl, rfl⟩
      decide
  · intro h
    simp only [Resize, sniff, readFirstTwo, h]
  · have h1 : ¬ (a = 0xff ∧ (0 : ℕ) = 0xd8) := by
      rintro ⟨_, h⟩
      norm_num at h
    have h2 : ¬ (a = 0x89 ∧ (0 : ℕ) = 0x50) := by
      rintro ⟨_, h⟩
      norm_num at h
    have hd : detectType a 0 = .UNKNOWN := by
      unfold detectType
      rw [if_neg h1, if_neg h2]
    simp only [Resize, sniff, readFirstTwo, hd]

theorem C9_format_sniffing_witness :
    detectType 0 1 = .UNKNOWN ∧
    Resize [0, 1] {} idOracle = ([], .error .unknownImageFormat) := by
  have hd : detectType 0 1 = .UNKNOWN := by decide
  exact ⟨hd, (C9_format_sniffing {} idOracle 0 1 [] []).2.2.2.2.1 hd⟩

theorem planBase_factor_pos (inW inH : ℤ) (o : Options) (hW : 0 < inW) (hH : 0 < inH) :
    0 < (planBase inW inH o).factor := by
  simp only [planBase]
  unfold planFWH
  split_ifs with h1 h2 h3 h4
  · exact lt_min (div_pos (by exact_mod_cast hW) (by exact_mod_cast h1.1))
      (div_pos (by exact_mod_cast hH) (by exact_mod_cast h1.2))
  · exact lt_max_iff.mpr
      (Or.inl (div_pos (by exact_mod_cast hW) (by exact_mod_cast h1.1)))
  · exact div_pos (by exact_mod_cast hW) (by exact_mod_cast h3)
  · exact div_pos (by exact_mod_cast hW) (by exact_mod_cast h4)
  · exact one_pos

theorem planBase_shrink_ge_one (inW inH : ℤ) (o : Options) :
    1 ≤ (planBase inW inH o).shrink := by
  simp only [planBase]
  split_ifs <;> omega

theorem planBase_residual_pos (inW inH : ℤ) (o : Options) (hW : 0 < inW) (hH : 0 < inH) :
    0 < (planBase inW inH o).residual := by
  have hf := planBase_factor_pos inW inH o hW hH
  have hs := planBase_shrink_ge_one inW inH o
  have hdef : (planBase inW inH o).residual =
      ((planBase inW inH o).shrink : ℚ) / (planBase inW inH o).factor := rfl
  rw [hdef]
  exact div_pos (by exact_mod_cast hs) hf

theorem recalc_residual_pos (p : Plan) : 0 < (recalcAfterShrinkOnLoad p).residual := by
  simp only [recalcAfterShrinkOnLoad]
  have hf : (1 : ℚ) ≤ max p.factor 1 := le_max_right _ _
  have hfl : (1 : ℤ) ≤ ⌊max p.factor 1⌋ := Int.le_floor.mpr (by exact_mod_cast hf)
  exact div_pos (by exact_mod_cast hfl) (lt_of_lt_of_le one_pos hf)

/-- C10 counterexample: for a 1000×10 input with request width 50 (fit mode),
the derived plan height is `⌊10/20⌋ = 0`; after the integral shrink the
recomputed residual is `min(50/50, 0/1) = 0`, so the affine stage takes the
identity-copy branch (no affine call in the trace) even though the
non-enlargement guard never fired: residual reaches 0 outside the guard. -/
theorem C10_counterexample :
    recomputeResidual false 50 0 50 1 = 0 ∧
    (runRaster 1000 10 { width := 50 } .PNG shrinkTo50x1Oracle).1 =
      [Call.shrinkBy 20 20, Call.embedExtend 0 0 50 0 .BLACK,
       Call.colourspace, Call.jpegsave 100] ∧
    mentionsAffine (runRaster 1000 10 { width := 50 } .PNG shrinkTo50x1Oracle).1 = false ∧
    ¬ guardCondition 1000 10 ({ width := 50 } : Options).enlarge
        (planBase 1000 10 { width := 50 }) := by
  have hpb : planBase 1000 10 { width := 50 } = ⟨20, 20, 1, 50, 0⟩ := by
    norm_num [planBase, planFWH]
  have hpd : planDimensions 1000 10 { width := 50 } = ⟨20, 20, 1, 50, 0⟩ := by
    norm_num [planDimensions, applyEnlargeGuard, guardCondition, hpb]
  have hss : shrinkStrategy .PNG (⟨20, 20, 1, 50, 0⟩ : Plan) =
      (1, ⟨20, 20, 1, 50, 0⟩) := by
    simp [shrinkStrategy, chooseShrinkOnLoad]
  have hres : recomputeResidual false 50 0 50 1 = 0 := by
    norm_num [recomputeResidual]
  have htrace : runRaster 1000 10 { width := 50 } .PNG shrinkTo50x1Oracle =
      ([Call.shrinkBy 20 20, Call.embedExtend 0 0 50 0 .BLACK,
        Call.colourspace, Call.jpegsave 100], .ok (50, 0)) := by
    simp only [runRaster]
    rw [hpd, hss]
    norm_num [runShrinkStage, shrinkTo50x1Oracle, hres, finishRaster, runAffine,
      runPlacement, placement, sharpCalcCrop]
    decide
  refine ⟨hres, by rw [htrace], ?_, ?_⟩
  · rw [htrace]
    rfl
  · rw [hpb]
    rintro ⟨-, h | h⟩ <;> norm_num at h

/-- C10 (amended): before the post-shrink residual recomputation, the
residual is 0 exactly when the non-enlargement guard fired (elsewhere it is
the quotient of a positive shrink by a positive factor); the recomputation
can additionally zero it when a derived plan dimension is 0.  For an
unconstrained request (width = 0 and height = 0) the plan's residual is 1 and
the affine resampler is invoked with scale 1.0 on both axes rather than
taking the identity-copy branch. -/
theorem C10_residual_zero_and_identity_affine (inW inH : ℤ) (o : Options)
    (typ : ImageType) (eng : Oracle) (hW : 0 < inW) (hH : 0 < inH) :
    ((shrinkStrategy typ (planDimensions inW inH o)).2.residual = 0 ↔
      guardCondition inW inH o.enlarge (planBase inW inH o)) ∧
    (o.width = 0 → o.height = 0 →
      (shrinkStrategy typ (planDimensions inW inH o)).2.residual = 1 ∧
      Call.affine 1 1 o.interpolator ∈ (runRaster inW inH o typ eng).1) := by
  constructor
  · by_cases hg : guardCondition inW inH o.enlarge (planBase inW inH o)
    · have hpd : planDimensions inW inH o = ⟨1, 1, 0, inW, inH⟩ := by
        unfold planDimensions applyEnlargeGuard
        rw [if_pos hg]
      have hss : shrinkStrategy typ (⟨1, 1, 0, inW, inH⟩ : Plan) =
          (1, ⟨1, 1, 0, inW, inH⟩) := by
        rcases typ <;> simp [shrinkStrategy, chooseShrinkOnLoad]
      rw [hpd, hss]
      simpa using hg
    · have hpd : planDimensions inW inH o = planBase inW inH o := by
        unfold planDimensions applyEnlargeGuard
        rw [if_neg hg]
      have hrespos : 0 < (shrinkStrategy typ (planDimensions inW inH o)).2.residual := by
        simp only [shrinkStrategy]
        by_cases hsol : 1 < (chooseShrinkOnLoad typ (planDimensions inW inH o)).1
        · rw [if_pos hsol]
          exact recalc_residual_pos _
        · rw [if_neg hsol,
            (chooseShrinkOnLoad_preserves typ (planDimensions inW inH o)).2.1, hpd]
          exact planBase_residual_pos inW inH o hW hH
      constructor
      · intro h0
        rw [h0] at hrespos
        exact absurd hrespos (lt_irrefl 0)
      · intro hgc
        exact absurd hgc hg
  · intro hw0 hh0
    have h1 : ¬ (0 < o.width ∧ 0 < o.height) := by rw [hw0]; simp
    have h2 : ¬ (0 < o.width) := by rw [hw0]; simp
    have h3 : ¬ (0 < o.height) := by rw [hh0]; simp
    have hpb : planBase inW inH o = ⟨1, 1, 1, inW, inH⟩ := by
      simp only [planBase, planFWH, if_neg h1, if_neg h2, if_neg h3]
      norm_num
    have hng : ¬ guardCondition inW inH o.enlarge (planBase inW inH o) := by
      rw [hpb]
      rintro ⟨-, h | h⟩ <;> exact absurd h (lt_irrefl _)
    have hpd : planDimensions inW inH o = ⟨1, 1, 1, inW, inH⟩ := by
      unfold planDimensions applyEnlargeGuard
      rw [if_neg hng, hpb]
    have hss : shrinkStrategy typ (⟨1, 1, 1, inW, inH⟩ : Plan) =
        (1, ⟨1, 1, 1, inW, inH⟩) := by
      rcases typ <;> simp [shrinkStrategy, chooseShrinkOnLoad]
    have haff1 : (runAffine eng o.interpolator 1 (inW, inH)).1 =
        [Call.affine 1 1 o.interpolator] := by
      unfold runAffine
      rw [if_pos (by norm_num : (1 : ℚ) ≠ 0)]
    have hrr : runRaster inW inH o typ eng =
        finishRaster eng o ⟨1, 1, 1, inW, inH⟩ 1 [] (inW, inH) := by
      simp only [runRaster]
      rw [hpd, hss]
      norm_num [runShrinkStage]
    refine ⟨by rw [hpd, hss], ?_⟩
    rw [hrr]
    simp only [finishRaster]
    rcases hca : (runAffine eng o.interpolator 1 (inW, inH)).2 with e | ad
    · simp [haff1]
    · rcases hcp : (runPlacement eng ad.1 ad.2 inW inH
          o.crop o.gravity o.extendWith).2 with e | d
      · simp [haff1, hcp]
      · simp [haff1, hcp]

theorem C10_residual_zero_and_identity_affine_witness :
    (shrinkStrategy .PNG (planDimensions 100 100 {})).2.residual = 1 ∧
    Call.affine 1 1 Interpolator.BICUBIC ∈ (runRaster 100 100 {} .PNG idOracle).1 := by
  exact (C10_residual_zero_and_identity_affine 100 100 {} .PNG idOracle
    (by norm_num) (by norm_num)).2 rfl rfl
